import Mathlib

/-!
# Verification of the multicalcli aggregation core

A shallow embedding of the core of `multicalcli` (a multi-account Google
Calendar CLI written in Python) together with proofs about it.

Embedded modules:
* `models.py`  — the `Event` and `Calendar` dataclasses with the derived
  properties `duration_minutes` and `is_multiday`;
* `api.py`     — `_parse_event_time`, the calendar eligibility test used by
  `get_all_events` (`_match_calendar` plus the access-role check), and the
  fan-out / merge / sort structure of `get_all_events` itself;
* `config.py`  — `validate_account_name` and `get_account_dir`;
* `display.py` — `_get_account_color` and the week-grid layout of
  `print_week`.

Modelling conventions:
* A Python aware `datetime` is a pair of a naive wall-clock reading (in
  seconds) and a fixed UTC offset (in seconds).  Comparison and subtraction
  of aware datetimes use the absolute instant `wall - offset`, while
  `.date()` reads the wall clock, exactly as in CPython.  The target zone
  Asia/Seoul has the fixed offset +9h (no DST), so a constant offset is
  faithful.
* Remote I/O is modelled by passing the data the backend would return as
  explicit inputs; a Python exception becomes `Except.error` carrying the
  message.  The thread pool of `get_all_events` joins all tasks before the
  final sort, so its observable behaviour is captured by processing the
  per-account outcomes in some completion order; we take the input order.
* Python's `list.sort(key=...)` is a stable sort by the key; we model it
  with `List.insertionSort`, which is stable and sorts by the same
  comparison.
* Filesystem paths are lists of components; `Path.resolve()` is modelled as
  lexical normalization of `.` and `..` components.
-/

/-- A Python aware `datetime`: a naive wall-clock reading in whole seconds
plus the UTC offset of its `tzinfo` in seconds. -/
structure PyDateTime where
  wall : Int
  offset : Int
deriving DecidableEq, Repr

namespace PyDateTime

/-- The absolute instant (seconds since the epoch, UTC).  Python compares
and subtracts aware datetimes through this value. -/
def instant (t : PyDateTime) : Int := t.wall - t.offset

/-- `datetime.date()`: the wall-clock date, as days since the epoch.
Wall seconds are turned into days with floor division, as in CPython. -/
def date (t : PyDateTime) : Int := t.wall.fdiv 86400

/-- `datetime.astimezone(tz)` for a fixed-offset `tz`: the instant is kept
and the wall clock is re-read in the new zone. -/
def astimezone (t : PyDateTime) (o : Int) : PyDateTime :=
  { wall := t.instant + o, offset := o }

/-- `datetime.replace(tzinfo=tz)` for a fixed-offset `tz`: the wall clock is
kept and only the offset changes. -/
def replaceTz (t : PyDateTime) (o : Int) : PyDateTime :=
  { wall := t.wall, offset := o }

end PyDateTime

/-- Offset of the target zone `KST = tz.gettz("Asia/Seoul")`, in seconds. -/
def kstOffset : Int := 9 * 3600

/-- `models.Calendar` (a plain dataclass). -/
structure Calendar where
  id : String
  summary : String
  access_role : String
  account_name : String
  time_zone : String := ""
  color_id : String := ""
deriving DecidableEq, Repr

/-- `models.Event` (a plain dataclass). -/
structure Event where
  id : String
  summary : String
  start : PyDateTime
  end_ : PyDateTime
  account_name : String
  calendar_id : String
  calendar_name : String := ""
  location : String := ""
  description : String := ""
  all_day : Bool := false
  html_link : String := ""
  hangout_link : String := ""
  attendees : List String := []
  color_id : String := ""
  status : String := ""
deriving DecidableEq, Repr

namespace Event

/-- `Event.duration_minutes`:
`int((self.end - self.start).total_seconds() / 60)`.
Subtraction of aware datetimes yields the instant difference in seconds;
`int(...)` truncates the quotient toward zero, which on integer input is
`Int.tdiv`. -/
def duration_minutes (e : Event) : Int :=
  (e.end_.instant - e.start.instant).tdiv 60

/-- `Event.is_multiday`: `self.start.date() != self.end.date()`. -/
def is_multiday (e : Event) : Bool :=
  e.start.date != e.end_.date

end Event

/-- A Google Calendar API time object, after string parsing: either a bare
`"date"` (as days since the epoch, what `strptime(.., "%Y-%m-%d")` yields as
a naive midnight) or a `"dateTime"` (the naive wall-clock seconds produced
by `dateutil_parser.parse`, with its zone offset when the string carried
one). -/
inductive GTime where
  | date (d : Int)
  | dateTime (wall : Int) (tzoffset : Option Int)
deriving DecidableEq, Repr

/-- `api._parse_event_time`: a bare date becomes midnight in KST with the
all-day flag set (`dt.replace(tzinfo=KST)` on the naive midnight); a
timestamp is given offset UTC when it has none (`dt.replace(tzinfo=utc)`)
and is then converted to KST (`dt.astimezone(KST)`). -/
def parse_event_time : GTime → PyDateTime × Bool
  | GTime.date d =>
      ((PyDateTime.mk (d * 86400) 0).replaceTz kstOffset, true)
  | GTime.dateTime wall tzo =>
      ((PyDateTime.mk wall (tzo.getD 0)).astimezone kstOffset, false)

/-! ## `config.py`: account-name validation and the account directory -/

/-- Membership in the character class `[a-zA-Z0-9_\-]`. -/
def allowedChar (c : Char) : Bool :=
  (('a' ≤ c && c ≤ 'z') || ('A' ≤ c && c ≤ 'Z') ||
   ('0' ≤ c && c ≤ '9') || c == '_' || c == '-')

/-- Drop one trailing newline character, if present. -/
def dropTrailingNewline (s : List Char) : List Char :=
  match s.getLast? with
  | some c => if c = '\n' then s.dropLast else s
  | none => s

/-- CPython semantics of `re.match(r'^[a-zA-Z0-9_\-]+$', name)` being a
match: the anchor `$` also matches just before a newline that ends the
string, so the pattern accepts a non-empty run of allowed characters
optionally followed by exactly one trailing newline. -/
def pyMatchName (s : List Char) : Bool :=
  let core := dropTrailingNewline s
  !core.isEmpty && core.all allowedChar

/-- The strict reading of the pattern `^[a-zA-Z0-9_\-]+$` as an anchored
regex over the whole string: a non-empty run of letters, digits, hyphens
and underscores, nothing else.  Kept separate from `pyMatchName` so the two
readings can be compared. -/
def strictMatchName (s : List Char) : Bool :=
  !s.isEmpty && s.all allowedChar

/-- The message of the `ValueError` raised by `validate_account_name`
(quotation marks around the name elided). -/
def invalidNameMsg (name : String) : String :=
  "Invalid account name " ++ name ++
    ". Use only letters, numbers, hyphens, and underscores."

/-- The message of the second `ValueError` in `get_account_dir`. -/
def escapedNameMsg (name : String) : String :=
  "Invalid account name " ++ name ++ "."

/-- `config.validate_account_name`: returns the name unchanged when the
regex matches, otherwise raises `ValueError`. -/
def validate_account_name (name : String) : Except String String :=
  if pyMatchName name.data then Except.ok name
  else Except.error (invalidNameMsg name)

/-- Lexical `Path.resolve()` over a path given as a list of components:
`.` disappears, `..` pops the previous component. -/
def resolveP (path : List String) : List String :=
  path.foldl
    (fun acc c =>
      if c = "." then acc
      else if c = ".." then acc.dropLast
      else acc ++ [c])
    []

/-- Component-wise path prefix test, modelling
`str(result).startswith(str(ACCOUNTS_DIR.resolve()))` on resolved paths. -/
def leadsPath : List String → List String → Bool
  | [], _ => true
  | _ :: _, [] => false
  | x :: xs, y :: ys => x == y && leadsPath xs ys

/-- `config.get_account_dir` with `ACCOUNTS_DIR` supplied as the component
list `base`: validate the name, resolve `ACCOUNTS_DIR / name` (the name
contains no path separator, so it is a single extra component), and reject
the result unless it stays under the resolved accounts directory. -/
def get_account_dir (base : List String) (name : String) :
    Except String (List String) :=
  match validate_account_name name with
  | Except.error e => Except.error e
  | Except.ok n =>
      let result := resolveP (base ++ [n])
      if leadsPath (resolveP base) result then Except.ok result
      else Except.error (escapedNameMsg name)

/-! ## `api.py`: calendar eligibility -/

/-- `str.lower` restricted to ASCII case mapping (account and calendar
names in the claims are ASCII). -/
def strLower (s : List Char) : List Char := s.map Char.toLower

/-- Whether the first list is an initial segment of the second. -/
def leadMatch : List Char → List Char → Bool
  | [], _ => true
  | _ :: _, [] => false
  | x :: xs, y :: ys => x == y && leadMatch xs ys

/-- Python's substring containment `needle in hay`. -/
def hasSub (needle : List Char) : List Char → Bool
  | [] => needle.isEmpty
  | c :: rest => leadMatch needle (c :: rest) || hasSub needle rest

/-- `_match_calendar` inside `get_all_events`: an empty (or absent) filter
accepts every calendar; otherwise some filter entry must occur in the
calendar summary, case-insensitively.  `None` and `[]` both make
`not calendar_filter` true in Python, so the absent filter is modelled as
the empty list. -/
def match_calendar (calendar_filter : List String) (cal : Calendar) : Bool :=
  if calendar_filter.isEmpty then true
  else calendar_filter.any
    (fun f => hasSub (strLower f.data) (strLower cal.summary.data))

/-- The eligibility test of the per-calendar loop in `_fetch_account`:
`cal.access_role in ("owner", "writer", "reader") and _match_calendar(cal)`. -/
def calendarEligible (calendar_filter : List String) (cal : Calendar) : Bool :=
  (cal.access_role == "owner" || cal.access_role == "writer" ||
      cal.access_role == "reader")
    && match_calendar calendar_filter cal

/-! ## `api.py`: the aggregator `get_all_events`

The backend is modelled by attaching to each account the data its remote
calls would produce: either the calendar listing fails outright, or it
yields the calendar entries, each paired with the outcome of
`get_events` for that calendar in the queried window. -/

deriving instance DecidableEq for Except

/-- One account as seen by `_fetch_account`: its name and the outcome of
its remote calls. -/
structure AccountData where
  name : String
  calendars : Except String (List (Calendar × Except String (List Event)))
deriving DecidableEq

/-- The per-calendar loop of `_fetch_account`: walk the calendar list in
order, query each eligible calendar, and accumulate the events.  The first
raising `get_events` call aborts the whole account task, losing the events
accumulated so far (they live in a local variable of the task). -/
def fetchCalendars (calendar_filter : List String) :
    List (Calendar × Except String (List Event)) →
    Except String (List Event)
  | [] => Except.ok []
  | (cal, r) :: rest =>
      if calendarEligible calendar_filter cal then
        match r with
        | Except.error e => Except.error e
        | Except.ok evs =>
            match fetchCalendars calendar_filter rest with
            | Except.error e => Except.error e
            | Except.ok tail => Except.ok (evs ++ tail)
      else fetchCalendars calendar_filter rest

/-- `_fetch_account`: `list_calendars` reaches
`get_service → load_credentials → get_account_dir → validate_account_name`
before any remote call, so a name that fails validation raises
`ValueError` inside the task; otherwise the calendar listing is used. -/
def fetch_account (calendar_filter : List String) (a : AccountData) :
    Except String (List Event) :=
  match validate_account_name a.name with
  | Except.error e => Except.error e
  | Except.ok _ =>
      match a.calendars with
      | Except.error e => Except.error e
      | Except.ok cals => fetchCalendars calendar_filter cals

/-- The synthetic event built in the `except` branch of `get_all_events`;
`now` stands for `datetime.now(timezone.utc)`. -/
def errorEvent (now : PyDateTime) (account : String) (err : String) : Event :=
  { id := "error"
    summary := "[Error: " ++ account ++ "] " ++ err
    start := now
    end_ := now
    account_name := account
    calendar_id := ""
    status := "error" }

/-- What one completed task contributes to `all_events`: its event list on
success, the synthetic error event on failure. -/
def accountContribution (now : PyDateTime) (calendar_filter : List String)
    (a : AccountData) : List Event :=
  match fetch_account calendar_filter a with
  | Except.ok evs => evs
  | Except.error e => [errorEvent now a.name e]

/-- The event list a succeeding account contributes (empty for a failing
one); used to state what the merged result contains. -/
def okEvents (calendar_filter : List String) (a : AccountData) : List Event :=
  match fetch_account calendar_filter a with
  | Except.ok evs => evs
  | Except.error _ => []

/-- The sort key order of `all_events.sort(key=lambda e: e.start)`:
Python compares aware datetimes by instant. -/
def startLe (a b : Event) : Prop := a.start.instant ≤ b.start.instant

instance : DecidableRel startLe := fun a b =>
  inferInstanceAs (Decidable (a.start.instant ≤ b.start.instant))

instance : IsTotal Event startLe :=
  ⟨fun a b => Int.le_total a.start.instant b.start.instant⟩

instance : IsTrans Event startLe :=
  ⟨fun _ _ _ hab hbc => le_trans hab hbc⟩

/-- `list.sort(key=lambda e: e.start)`: a stable sort by the start instant,
modelled by stable insertion sort. -/
def sortByStart (l : List Event) : List Event :=
  List.insertionSort startLe l

/-- `api.get_all_events` for an explicitly given account list: an empty
list short-circuits to `[]`; otherwise every per-account task runs to
completion or failure, each contributes its events or one synthetic error
event (in the modelled completion order, the input order), and the merged
list is sorted by start. -/
def get_all_events (now : PyDateTime) (calendar_filter : List String)
    (accounts : List AccountData) : List Event :=
  if accounts.isEmpty then []
  else sortByStart ((accounts.map (accountContribution now calendar_filter)).flatten)

/-! ## `display.py`: account colors -/

/-- The `ACCOUNT_COLORS` palette. -/
def ACCOUNT_COLORS : List String :=
  ["cyan", "magenta", "green", "yellow", "blue",
   "red", "bright_cyan", "bright_magenta", "bright_green", "bright_yellow"]

/-- `_get_account_color`, with the module-level `_color_map` dict made an
explicit insertion-ordered association list: an unseen account is assigned
`ACCOUNT_COLORS[len(_color_map) % len(ACCOUNT_COLORS)]` and recorded; a
seen account gets its recorded color. -/
def get_account_color (m : List (String × String)) (name : String) :
    String × List (String × String) :=
  match m.lookup name with
  | some c => (c, m)
  | none =>
      let c := ACCOUNT_COLORS.getD (m.length % ACCOUNT_COLORS.length) ""
      (c, m ++ [(name, c)])

/-- Run a sequence of `_get_account_color` calls against an initial map,
returning the colors in order. -/
def runColorsFrom (m : List (String × String)) : List String → List String
  | [] => []
  | n :: rest =>
      let p := get_account_color m n
      p.1 :: runColorsFrom p.2 rest

/-- The colors produced by a call sequence in a fresh process. -/
def runColors (names : List String) : List String := runColorsFrom [] names

/-! ## `display.py`: the week-grid layout of `print_week`

Dates are days since the epoch.  Only the layout (which event occupies
which cell, and which cells are blank) is modelled; the textual rendering
of an occupied cell is abstracted, so a cell is `Option Event` with `none`
for the blank string `""`. -/

/-- `date.weekday()`: Monday is `0`.  Day `0` of the epoch (1970-01-01)
was a Thursday. -/
def weekdayOf (d : Int) : Int := (d + 3) % 7

/-- The alignment of `start_date` to the start of its week at the top of
`print_week`. -/
def alignWeekStart (startDate : Int) (mondayStart : Bool) : Int :=
  if mondayStart then startDate - weekdayOf startDate
  else startDate - ((weekdayOf startDate + 1) % 7)

/-- The `day_events` bucket of one day: the events whose start date is that
day, in input order (the loop appends in input order). -/
def dayBucket (events : List Event) (d : Int) : List Event :=
  events.filter (fun e => e.start.date == d)

/-- `max((len(v) for v in day_events.values()), default=0)` for the seven
days of the week beginning at `weekStart`. -/
def weekMaxEvents (events : List Event) (weekStart : Int) : Nat :=
  ((List.range 7).map
    (fun (k : Nat) => (dayBucket events (weekStart + (k : Int))).length)).foldl
    max 0

/-- The rows of one week of the grid: `max(max_events, 1)` rows, each with
seven cells; cell `(r, k)` holds the `r`-th event of day `k` when that day
has more than `r` events and is blank otherwise. -/
def weekGrid (events : List Event) (weekStart : Int) :
    List (List (Option Event)) :=
  (List.range (max (weekMaxEvents events weekStart) 1)).map
    (fun (r : Nat) => (List.range 7).map
      (fun (k : Nat) => (dayBucket events (weekStart + (k : Int)))[r]?))

/-- `print_week`: one grid per week, the first week aligned backward to the
configured week start. -/
def printWeekGrids (events : List Event) (weeks : Nat) (startDate : Int)
    (mondayStart : Bool) : List (List (List (Option Event))) :=
  (List.range weeks).map
    (fun (w : Nat) =>
      weekGrid events (alignWeekStart startDate mondayStart + 7 * (w : Int)))

/-! ## Spec-side characterizations used by the claims -/

/-- Whether a source time object is a bare date. -/
def isBareDate : GTime → Bool
  | GTime.date _ => true
  | GTime.dateTime _ _ => false

/-- The absolute instant the spec assigns to a source time object: midnight
of the bare date in the target zone, or the carried timestamp interpreted
in its zone, defaulting to UTC. -/
def sourceInstant : GTime → Int
  | GTime.date d => d * 86400 - kstOffset
  | GTime.dateTime w none => w
  | GTime.dateTime w (some o) => w - o

/-- Modelled from the spec: `round((end - start) in minutes)` — the integer
nearest to `s / 60` for a duration of `s` seconds. -/
def roundMinutes (s : Int) : Int := (2 * s + 60).fdiv 120

/-! ## C6: `_parse_event_time` -/

/-- C6.  For every source time object, `_parse_event_time` flags exactly
the bare dates as all-day, always lands in the target zone (KST), and
denotes the instant the spec describes: midnight of the bare date in KST,
or the timestamp interpreted in its own zone (UTC when absent) and
converted. -/
theorem parse_event_time_spec (g : GTime) :
    (parse_event_time g).2 = isBareDate g ∧
    (parse_event_time g).1.offset = kstOffset ∧
    (parse_event_time g).1.instant = sourceInstant g := by
  cases g with
  | date d =>
      refine ⟨rfl, rfl, ?_⟩
      simp [parse_event_time, PyDateTime.replaceTz, PyDateTime.instant,
        sourceInstant]
  | dateTime w tzo =>
      cases tzo with
      | none =>
          refine ⟨rfl, rfl, ?_⟩
          simp [parse_event_time, PyDateTime.astimezone, PyDateTime.instant,
            sourceInstant]
      | some o =>
          refine ⟨rfl, rfl, ?_⟩
          simp [parse_event_time, PyDateTime.astimezone, PyDateTime.instant,
            sourceInstant]

/-! ## C4: `duration_minutes` -/

/-- A 100-second event: 100 s = 1.667 min, truncated to 1 by the code but
2 when rounded to the nearest minute. -/
def shortEvent : Event :=
  { id := "s", summary := "short", start := PyDateTime.mk 0 0,
    end_ := PyDateTime.mk 100 0, account_name := "a", calendar_id := "c" }

/-- C4 counterexample.  `duration_minutes` truncates instead of rounding:
on a 100-second event it yields 1 while the nearest integer to 100/60 is 2,
so the claimed equation with rounding fails. -/
theorem duration_minutes_not_round :
    shortEvent.start.instant ≤ shortEvent.end_.instant ∧
    shortEvent.duration_minutes ≠
      roundMinutes (shortEvent.end_.instant - shortEvent.start.instant) := by
  decide

/-- C4 amended.  For every event with `start <= end`, `duration_minutes`
is the duration in minutes truncated toward zero, i.e. the floor of
`(end - start) / 60`. -/
theorem duration_minutes_eq_floor (e : Event)
    (h : e.start.instant ≤ e.end_.instant) :
    e.duration_minutes = (e.end_.instant - e.start.instant).fdiv 60 := by
  unfold Event.duration_minutes
  have h0 : 0 ≤ e.end_.instant - e.start.instant := by omega
  obtain ⟨n, hn⟩ := Int.eq_ofNat_of_zero_le h0
  rw [hn, show (60 : Int) = ((60 : Nat) : Int) from rfl,
    ← Int.ofNat_tdiv, ← Int.ofNat_fdiv]

/-- C4 witness: the amended statement evaluated on the 100-second event. -/
theorem duration_minutes_eq_floor_witness :
    shortEvent.start.instant ≤ shortEvent.end_.instant ∧
    shortEvent.duration_minutes =
      (shortEvent.end_.instant - shortEvent.start.instant).fdiv 60 :=
  ⟨by decide, duration_minutes_eq_floor shortEvent (by decide)⟩

/-! ## C5: the all-day round trip -/

/-- Days since the epoch of 2024-03-01. -/
def day20240301 : Int := 19783

/-- Days since the epoch of 2024-03-02. -/
def day20240302 : Int := 19784

/-- The event built from the source all-day pair
`start = {date: 2024-03-01}`, `end = {date: 2024-03-02}`, exactly as
`get_events` builds it from `_parse_event_time`. -/
def allDayEvent : Event :=
  { id := "ad", summary := "all day", start := (parse_event_time (GTime.date day20240301)).1,
    end_ := (parse_event_time (GTime.date day20240302)).1,
    account_name := "a", calendar_id := "c",
    all_day := (parse_event_time (GTime.date day20240301)).2 }

/-- C5 counterexample.  On the bare-date pair 2024-03-01 / 2024-03-02 the
claimed conjunction fails: the code marks the event multi-day, because
`is_multiday` compares bare wall dates and the exclusive all-day end date
is the following day. -/
theorem allday_roundtrip_counterexample :
    ¬ (allDayEvent.all_day = true ∧
       allDayEvent.start.wall = day20240301 * 86400 ∧
       allDayEvent.start.offset = kstOffset ∧
       allDayEvent.is_multiday = false) := by
  decide

/-- C5 amended.  The source pair of bare dates 2024-03-01 / 2024-03-02
yields `all_day = true` and a start at local midnight of 2024-03-01 in the
target zone, but `is_multiday = true`: the code does not treat the
exclusive end date of a one-day all-day event specially. -/
theorem allday_roundtrip_amended :
    allDayEvent.all_day = true ∧
    allDayEvent.start.wall = day20240301 * 86400 ∧
    allDayEvent.start.offset = kstOffset ∧
    allDayEvent.is_multiday = true := by
  decide

/-! ## C7: calendar eligibility -/

/-- The calendar named "Work Team" of the spec example. -/
def workTeamCal : Calendar :=
  { id := "wt", summary := "Work Team", access_role := "owner",
    account_name := "a" }

/-- A calendar whose access role is `none`. -/
def noRoleCal : Calendar :=
  { id := "nr", summary := "Holidays", access_role := "none",
    account_name := "a" }

/-- Characterization of the eligibility test. -/
theorem calendarEligible_iff (cf : List String) (cal : Calendar) :
    calendarEligible cf cal = true ↔
      (cal.access_role ∈ (["owner", "writer", "reader"] : List String) ∧
       (cf = [] ∨ ∃ f ∈ cf,
          hasSub (strLower f.data) (strLower cal.summary.data) = true)) := by
  unfold calendarEligible match_calendar
  rcases cf with _ | ⟨f, fs⟩ <;> simp [List.any_eq_true] <;> tauto

/-- A calendar whose access role is `none` is never eligible. -/
theorem calendarEligible_of_none (cf : List String) (cal : Calendar)
    (h : cal.access_role = "none") : calendarEligible cf cal = false := by
  by_contra hc
  rw [Bool.not_eq_false] at hc
  have hm := ((calendarEligible_iff cf cal).mp hc).1
  rw [h] at hm
  exact absurd hm (by decide)

/-- C7.  A calendar is eligible iff its access role is owner, writer or
reader and the name filter is empty or some entry occurs case-insensitively
in its display name; a calendar with role `none` is never eligible; and
"Work Team" matches the filter `["team"]`. -/
theorem calendar_eligibility_spec :
    (∀ (cf : List String) (cal : Calendar),
      calendarEligible cf cal = true ↔
        (cal.access_role ∈ (["owner", "writer", "reader"] : List String) ∧
         (cf = [] ∨ ∃ f ∈ cf,
            hasSub (strLower f.data) (strLower cal.summary.data) = true))) ∧
    (∀ (cf : List String) (cal : Calendar),
      cal.access_role = "none" → calendarEligible cf cal = false) ∧
    match_calendar ["team"] workTeamCal = true :=
  ⟨calendarEligible_iff, fun cf cal h => calendarEligible_of_none cf cal h,
    by decide⟩

/-- C7 witness: the characterization applied to the two concrete calendars
of the spec example. -/
theorem calendar_eligibility_spec_witness :
    calendarEligible ["team"] workTeamCal = true ∧
    calendarEligible ["team"] noRoleCal = false :=
  ⟨(calendar_eligibility_spec.1 ["team"] workTeamCal).mpr
      ⟨by decide, Or.inr ⟨"team", by decide, by decide⟩⟩,
    calendar_eligibility_spec.2.1 ["team"] noRoleCal rfl⟩

/-! ## C10: account-name validation and path safety -/

/-- A concrete stand-in for the resolved `ACCOUNTS_DIR`. -/
def accountsDirW : List String := ["home", ".config", "multicalcli", "accounts"]

/-- `leadsPath p (p ++ q)` always holds. -/
theorem leadsPath_append (p q : List String) : leadsPath p (p ++ q) = true := by
  induction p with
  | nil => rfl
  | cons x xs ih => simp [leadsPath, ih]

/-- Appending a component that is neither `.` nor `..` commutes with
lexical resolution. -/
theorem resolveP_append_single (l : List String) (c : String)
    (h1 : c ≠ ".") (h2 : c ≠ "..") :
    resolveP (l ++ [c]) = resolveP l ++ [c] := by
  unfold resolveP
  rw [List.foldl_append]
  simp [h1, h2]

/-- A name accepted by the validation regex is not a relative path
component. -/
theorem pyMatchName_not_dot (name : String)
    (h : pyMatchName name.data = true) : name ≠ "." ∧ name ≠ ".." := by
  constructor
  · intro he; subst he; exact absurd h (by decide)
  · intro he; subst he; exact absurd h (by decide)

/-- C10 counterexample.  The name `"ab\n"` violates the strict reading of
`^[a-zA-Z0-9_\-]+$` (it contains a newline, which is neither a letter, a
digit, a hyphen nor an underscore), yet `validate_account_name` accepts it
and `get_account_dir` returns a directory for it: CPython's `$` also
matches just before a trailing newline, so no `ValueError` is raised. -/
theorem account_name_pattern_counterexample :
    strictMatchName ("ab\n".data) = false ∧
    validate_account_name "ab\n" = Except.ok "ab\n" ∧
    get_account_dir accountsDirW "ab\n" =
      Except.ok ["home", ".config", "multicalcli", "accounts", "ab\n"] := by
  decide

/-- C10 amended.  `get_account_dir` raises `ValueError` exactly when the
name fails `^[a-zA-Z0-9_\-]+$` under CPython matching semantics (which
additionally tolerate one trailing newline); when it succeeds it returns
the resolved accounts directory extended by the single component `name`
(so `validate_account_name` returned the name unchanged), and that path
stays inside the resolved accounts directory — no name can escape it. -/
theorem get_account_dir_safety (base : List String) (name : String) :
    get_account_dir base name =
      (if pyMatchName name.data then Except.ok (resolveP base ++ [name])
       else Except.error (invalidNameMsg name)) ∧
    leadsPath (resolveP base) (resolveP base ++ [name]) = true := by
  refine ⟨?_, leadsPath_append _ _⟩
  unfold get_account_dir validate_account_name
  by_cases h : pyMatchName name.data = true
  · obtain ⟨h1, h2⟩ := pyMatchName_not_dot name h
    rw [if_pos h, if_pos h]
    simp only [resolveP_append_single base name h1 h2,
      leadsPath_append (resolveP base) [name], if_true]
  · rw [if_neg h, if_neg h]

/-! ## C1: the merged result is sorted by start -/

/-- C1.  For every non-empty account list and window data, `get_all_events`
returns a list sorted non-decreasingly by each event's start instant; the
synthetic error events are appended before the final sort and therefore
participate in it. -/
theorem get_all_events_sorted (now : PyDateTime) (cf : List String)
    (accounts : List AccountData) (h : accounts ≠ []) :
    List.Sorted startLe (get_all_events now cf accounts) := by
  unfold get_all_events
  split
  · next hemp => exact absurd (List.isEmpty_iff.mp hemp) h
  · exact List.sorted_insertionSort startLe _

/-- A fixed `datetime.now(timezone.utc)` used by the concrete scenarios. -/
def now0 : PyDateTime := PyDateTime.mk 500 0

/-- An account whose two calendars return events out of global order. -/
def acctP : AccountData :=
  { name := "alice"
    calendars := Except.ok
      [(Calendar.mk "p1" "Personal" "owner" "alice" "" "",
          Except.ok
            [{ id := "x1", summary := "late", start := PyDateTime.mk 9000 0,
               end_ := PyDateTime.mk 9600 0, account_name := "alice",
               calendar_id := "p1" }]),
       (Calendar.mk "p2" "Work" "reader" "alice" "" "",
          Except.ok
            [{ id := "x2", summary := "early", start := PyDateTime.mk 100 0,
               end_ := PyDateTime.mk 200 0, account_name := "alice",
               calendar_id := "p2" }])] }

/-- An account whose fetch fails outright. -/
def acctQ : AccountData :=
  { name := "bob", calendars := Except.error "HttpError 503" }

/-- C1 witness: the sortedness theorem applied to a concrete two-account
scenario containing out-of-order events and a synthetic error event. -/
theorem get_all_events_sorted_witness :
    [acctP, acctQ] ≠ [] ∧
    List.Sorted startLe (get_all_events now0 [] [acctP, acctQ]) :=
  ⟨by decide, get_all_events_sorted now0 [] [acctP, acctQ] (by decide)⟩

/-! ## C3: a `ValidationError` inside a per-account task -/

/-- An account whose name fails `validate_account_name` (it contains a
space). -/
def badNameAcct : AccountData :=
  { name := "bad name", calendars := Except.ok [] }

/-- C3 counterexample.  A name failing syntax validation raises
`ValueError` inside the per-account task, where the blanket
`except Exception` of `get_all_events` converts it into a synthetic
`status = error` event in the returned partial result instead of
propagating it: the call returns normally with exactly that event. -/
theorem validation_error_becomes_event :
    pyMatchName ("bad name".data) = false ∧
    get_all_events now0 [] [badNameAcct] =
      [errorEvent now0 "bad name" (invalidNameMsg "bad name")] := by
  decide

/-- C3 amended.  A `ValidationError` on account-name syntax raised inside a
per-account fetch task is captured like any other per-account failure and
converted into a synthetic error event of the merged result; it is not
propagated to the caller of `get_all_events`. -/
theorem validation_error_isolated (now : PyDateTime) (cf : List String)
    (accounts : List AccountData) (a : AccountData)
    (ha : a ∈ accounts) (hbad : pyMatchName a.name.data = false) :
    errorEvent now a.name (invalidNameMsg a.name) ∈
      get_all_events now cf accounts := by
  unfold get_all_events
  rw [if_neg (by simp [List.isEmpty_iff]; exact List.ne_nil_of_mem ha)]
  unfold sortByStart
  rw [List.mem_insertionSort]
  rw [List.mem_flatten]
  refine ⟨accountContribution now cf a, List.mem_map_of_mem _ ha, ?_⟩
  unfold accountContribution fetch_account validate_account_name
  rw [if_neg (by simp [hbad])]
  exact List.mem_singleton_self _

/-- C3 witness: the amended statement evaluated on the bad-name account. -/
theorem validation_error_isolated_witness :
    badNameAcct ∈ [badNameAcct] ∧
    errorEvent now0 "bad name" (invalidNameMsg "bad name") ∈
      get_all_events now0 [] [badNameAcct] :=
  ⟨by decide,
    validation_error_isolated now0 [] [badNameAcct] badNameAcct (by decide)
      (by decide)⟩

/-! ## C2: error isolation in the aggregate fetch -/

/-- The event of the failing account's first calendar, fetched before the
failure. -/
def evA1 : Event :=
  { id := "ea1", summary := "prefetched", start := PyDateTime.mk 1000 0,
    end_ := PyDateTime.mk 2000 0, account_name := "carol",
    calendar_id := "c1", status := "confirmed" }

/-- The event of the succeeding account. -/
def evB1 : Event :=
  { id := "eb1", summary := "other", start := PyDateTime.mk 3000 0,
    end_ := PyDateTime.mk 4000 0, account_name := "dave",
    calendar_id := "d1", status := "confirmed" }

/-- An account whose first calendar is fetched successfully and whose
second calendar raises. -/
def failAcct : AccountData :=
  { name := "carol"
    calendars := Except.ok
      [(Calendar.mk "c1" "First" "owner" "carol" "" "", Except.ok [evA1]),
       (Calendar.mk "c2" "Second" "owner" "carol" "" "",
          Except.error "HttpError 500")] }

/-- An account whose single calendar succeeds. -/
def okAcct : AccountData :=
  { name := "dave"
    calendars := Except.ok
      [(Calendar.mk "d1" "Main" "owner" "dave" "" "", Except.ok [evB1])] }

/-- C2 counterexample.  When the failing account's first calendar was
already fetched (the per-calendar loop consumed `Except.ok [evA1]` before
hitting the failure), its events do NOT appear in the merged result: the
exception aborts the whole task and the local accumulator is discarded.
The other account's events and exactly one synthetic error event are
present. -/
theorem prefetched_events_dropped :
    fetchCalendars []
        [(Calendar.mk "c1" "First" "owner" "carol" "" "", Except.ok [evA1]),
         (Calendar.mk "c2" "Second" "owner" "carol" "" "",
            Except.error "HttpError 500")] =
      Except.error "HttpError 500" ∧
    evA1 ∉ get_all_events now0 [] [failAcct, okAcct] ∧
    evB1 ∈ get_all_events now0 [] [failAcct, okAcct] ∧
    (get_all_events now0 [] [failAcct, okAcct]).countP
      (fun e => e.status == "error") = 1 := by
  decide

/-- Whether a per-account task completes without raising. -/
def fetchOk (cf : List String) (b : AccountData) : Bool :=
  match fetch_account cf b with
  | Except.ok _ => true
  | Except.error _ => false

/-- A task that completes contributes exactly its fetched events. -/
theorem accountContribution_of_ok (now : PyDateTime) (cf : List String)
    (b : AccountData) (h : fetchOk cf b = true) :
    accountContribution now cf b = okEvents cf b := by
  unfold fetchOk at h
  unfold accountContribution okEvents
  cases hf : fetch_account cf b with
  | ok evs => rfl
  | error e => rw [hf] at h; simp at h

/-- C2 amended.  If exactly one account's task raises (with message `msg`)
while all the others complete, the merged result is a permutation of one
synthetic error event for the failing account — carrying its name and the
error description — together with all events of the other accounts; the
failing account's already-fetched calendars contribute nothing, because the
exception discards the task-local accumulator.  Provided no real event
carries status `error`, the result holds exactly one `status = error`
event. -/
theorem get_all_events_error_isolation (now : PyDateTime) (cf : List String)
    (pre post : List AccountData) (a : AccountData) (msg : String)
    (ha : fetch_account cf a = Except.error msg)
    (hok : ∀ b ∈ pre ++ post, fetchOk cf b = true)
    (hstatus : ∀ b ∈ pre ++ post, ∀ e ∈ okEvents cf b, e.status ≠ "error") :
    (get_all_events now cf (pre ++ a :: post)).Perm
      (errorEvent now a.name msg ::
        ((pre ++ post).map (okEvents cf)).flatten) ∧
    (get_all_events now cf (pre ++ a :: post)).countP
      (fun e => e.status == "error") = 1 := by
  have hmapre : pre.map (accountContribution now cf) = pre.map (okEvents cf) :=
    List.map_congr_left
      (fun b hb => accountContribution_of_ok now cf b (hok b (by simp [hb])))
  have hmappost : post.map (accountContribution now cf) = post.map (okEvents cf) :=
    List.map_congr_left
      (fun b hb => accountContribution_of_ok now cf b (hok b (by simp [hb])))
  have hca : accountContribution now cf a = [errorEvent now a.name msg] := by
    unfold accountContribution
    rw [ha]
  have hperm : (get_all_events now cf (pre ++ a :: post)).Perm
      (errorEvent now a.name msg ::
        ((pre ++ post).map (okEvents cf)).flatten) := by
    unfold get_all_events
    rw [if_neg (by simp)]
    unfold sortByStart
    refine (List.perm_insertionSort startLe _).trans ?_
    rw [List.map_append, List.map_cons, List.flatten_append,
      List.flatten_cons, hmapre, hmappost, hca,
      List.map_append, List.flatten_append]
    exact List.perm_middle
  refine ⟨hperm, ?_⟩
  rw [hperm.countP_eq]
  rw [List.countP_cons]
  have hzero : (((pre ++ post).map (okEvents cf)).flatten).countP
      (fun e => e.status == "error") = 0 := by
    rw [List.countP_eq_zero]
    intro e he
    rw [List.mem_flatten] at he
    obtain ⟨l, hl, hel⟩ := he
    rw [List.mem_map] at hl
    obtain ⟨b, hb, rfl⟩ := hl
    have hne := hstatus b hb e hel
    simp only [beq_iff_eq]
    exact hne
  rw [hzero]
  simp [errorEvent]

/-- C2 witness: the isolation theorem evaluated on the one-failing-account
scenario; the failing account is `carol`, the succeeding one `dave`. -/
theorem get_all_events_error_isolation_witness :
    fetch_account [] failAcct = Except.error "HttpError 500" ∧
    ((get_all_events now0 [] [failAcct, okAcct]).Perm
        (errorEvent now0 "carol" "HttpError 500" ::
          (([okAcct]).map (okEvents [])).flatten) ∧
     (get_all_events now0 [] [failAcct, okAcct]).countP
        (fun e => e.status == "error") = 1) :=
  ⟨by decide,
    get_all_events_error_isolation now0 [] [] [okAcct] failAcct
      "HttpError 500" (by decide) (by decide) (by decide)⟩

/-! ## C9: account color assignment -/

/-- The palette color of first-appearance rank `k`. -/
def paletteAt (k : Nat) : String :=
  ACCOUNT_COLORS.getD (k % ACCOUNT_COLORS.length) ""

/-- The index of the first occurrence of a name in a list (length when
absent). -/
def rankIn : List String → String → Nat
  | [], _ => 0
  | x :: xs, n => if x = n then 0 else rankIn xs n + 1

/-- The distinct names in order of first appearance, continuing from an
already-seen prefix. -/
def seenOrderAux (acc : List String) : List String → List String
  | [] => acc
  | n :: rest =>
      seenOrderAux (if acc.contains n then acc else acc ++ [n]) rest

/-- The distinct names of a call sequence in order of first appearance. -/
def seenOrder (names : List String) : List String := seenOrderAux [] names

/-- The color map after the names `ord` have been assigned starting at
palette rank `k`. -/
def colorMapAux (k : Nat) : List String → List (String × String)
  | [] => []
  | n :: rest => (n, paletteAt k) :: colorMapAux (k + 1) rest

theorem colorMapAux_length :
    ∀ (ord : List String) (k : Nat), (colorMapAux k ord).length = ord.length := by
  intro ord
  induction ord with
  | nil => intro k; rfl
  | cons x xs ih => intro k; simp [colorMapAux, ih (k + 1)]

theorem colorMapAux_append (n : String) :
    ∀ (ord : List String) (k : Nat),
      colorMapAux k (ord ++ [n]) =
        colorMapAux k ord ++ [(n, paletteAt (k + ord.length))] := by
  intro ord
  induction ord with
  | nil => intro k; simp [colorMapAux]
  | cons x xs ih =>
      intro k
      have harith : k + 1 + xs.length = k + (xs.length + 1) := by omega
      simp [colorMapAux, ih (k + 1), harith]

theorem lookup_colorMapAux (n : String) :
    ∀ (ord : List String) (k : Nat),
      (colorMapAux k ord).lookup n =
        if n ∈ ord then some (paletteAt (k + rankIn ord n)) else none := by
  intro ord
  induction ord with
  | nil => intro k; simp [colorMapAux]
  | cons x xs ih =>
      intro k
      by_cases hx : x = n
      · subst hx
        simp [colorMapAux, List.lookup_cons, rankIn]
      · have hbeq : (n == x) = false :=
          beq_eq_false_iff_ne.mpr (Ne.symm hx)
        have harith : k + (rankIn xs n + 1) = k + 1 + rankIn xs n := by omega
        simp only [colorMapAux, List.lookup_cons, hbeq, ih (k + 1), rankIn,
          if_neg hx, harith]
        by_cases hm : n ∈ xs
        · simp [hm, Ne.symm hx]
        · simp [hm, Ne.symm hx]

theorem rankIn_append_of_mem (n : String) :
    ∀ (ord extra : List String), n ∈ ord →
      rankIn (ord ++ extra) n = rankIn ord n := by
  intro ord extra h
  induction ord with
  | nil => cases h
  | cons x xs ih =>
      by_cases hx : x = n
      · simp [rankIn, hx]
      · have hm : n ∈ xs := by
          cases h with
          | head => exact absurd rfl hx
          | tail _ h2 => exact h2
        simp [rankIn, hx, ih hm]

theorem rankIn_append_self (n : String) :
    ∀ (ord : List String), n ∉ ord → rankIn (ord ++ [n]) n = ord.length := by
  intro ord h
  induction ord with
  | nil => simp [rankIn]
  | cons x xs ih =>
      have hx : ¬ x = n := by
        intro he
        subst he
        exact h (List.mem_cons_self x xs)
      have hm : n ∉ xs := fun hmem => h (List.mem_cons_of_mem x hmem)
      simp [rankIn, hx, ih hm]

theorem seenOrderAux_extends :
    ∀ (rest acc : List String), ∃ extra, seenOrderAux acc rest = acc ++ extra := by
  intro rest
  induction rest with
  | nil => intro acc; exact ⟨[], by simp [seenOrderAux]⟩
  | cons n rs ih =>
      intro acc
      unfold seenOrderAux
      by_cases hc : acc.contains n = true
      · rw [if_pos hc]
        exact ih acc
      · rw [if_neg hc]
        obtain ⟨extra, he⟩ := ih (acc ++ [n])
        exact ⟨[n] ++ extra, by rw [he, List.append_assoc]⟩

/-- The central invariant: running the color assignment over a call
sequence against the map built from an already-seen order yields, for every
call, the palette entry of the name's first-appearance rank. -/
theorem runColorsFrom_spec :
    ∀ (names ord : List String),
      runColorsFrom (colorMapAux 0 ord) names =
        names.map (fun n => paletteAt (rankIn (seenOrderAux ord names) n)) := by
  intro names
  induction names with
  | nil => intro ord; rfl
  | cons n rest ih =>
      intro ord
      have hstep : runColorsFrom (colorMapAux 0 ord) (n :: rest) =
          (get_account_color (colorMapAux 0 ord) n).1 ::
            runColorsFrom (get_account_color (colorMapAux 0 ord) n).2 rest := rfl
      by_cases hm : n ∈ ord
      · have hc : ord.contains n = true := by simpa using hm
        have hgac : get_account_color (colorMapAux 0 ord) n =
            (paletteAt (rankIn ord n), colorMapAux 0 ord) := by
          unfold get_account_color
          rw [lookup_colorMapAux n ord 0, if_pos hm, Nat.zero_add]
        have hseen : seenOrderAux ord (n :: rest) = seenOrderAux ord rest := by
          show seenOrderAux (if ord.contains n then ord else ord ++ [n]) rest =
            seenOrderAux ord rest
          rw [if_pos hc]
        obtain ⟨extra, hex⟩ := seenOrderAux_extends rest ord
        rw [hstep, hgac]
        simp only [List.map_cons, hseen, ih ord]
        rw [hex, rankIn_append_of_mem n ord extra hm]
      · have hc : ¬ ord.contains n = true := by simpa using hm
        have hgac : get_account_color (colorMapAux 0 ord) n =
            (paletteAt ord.length, colorMapAux 0 (ord ++ [n])) := by
          unfold get_account_color
          rw [lookup_colorMapAux n ord 0, if_neg hm, colorMapAux_length ord 0,
            colorMapAux_append n ord 0, Nat.zero_add]
          rfl
        have hseen : seenOrderAux ord (n :: rest) =
            seenOrderAux (ord ++ [n]) rest := by
          show seenOrderAux (if ord.contains n then ord else ord ++ [n]) rest =
            seenOrderAux (ord ++ [n]) rest
          rw [if_neg hc]
        obtain ⟨extra, hex⟩ := seenOrderAux_extends rest (ord ++ [n])
        rw [hstep, hgac]
        simp only [List.map_cons, hseen, ih (ord ++ [n])]
        rw [hex, rankIn_append_of_mem n (ord ++ [n]) extra (by simp),
          rankIn_append_self n ord hm]

/-- C9.  Account color assignment is an order-of-first-appearance mapping:
every call in a sequence receives the palette entry at the index of its
name's first appearance among the distinct names, modulo the palette size
(`paletteAt`), so repeated queries always return the same token; in
particular the sequence alice, bob, alice receives palette entries 0, 1, 0. -/
theorem account_color_first_appearance :
    (∀ names : List String,
      runColors names =
        names.map (fun n => paletteAt (rankIn (seenOrder names) n))) ∧
    runColors ["alice", "bob", "alice"] =
      [ACCOUNT_COLORS.getD 0 "", ACCOUNT_COLORS.getD 1 "",
        ACCOUNT_COLORS.getD 0 ""] := by
  constructor
  · intro names
    have h := runColorsFrom_spec names []
    simpa [runColors, seenOrder, colorMapAux] using h
  · rfl

/-! ## C8: rows of the week grid -/

/-- C8.  Every week grid produced by `print_week` has exactly
`max(max events in any single day of that week, 1)` rows; each cell `(r, k)`
holds the `r`-th event of the week's `k`-th day, and is blank (`none`) as
soon as that day has at most `r` events — so a day with fewer events than
the row count gets blank cells in all remaining rows, and an empty week
still renders one blank row. -/
theorem week_grid_rows (events : List Event) (weeks : Nat) (startDate : Int)
    (mondayStart : Bool) (g : List (List (Option Event)))
    (hg : g ∈ printWeekGrids events weeks startDate mondayStart) :
    ∃ ws : Int,
      g = weekGrid events ws ∧
      g.length = max (weekMaxEvents events ws) 1 ∧
      1 ≤ g.length ∧
      ∀ r k : Nat, r < g.length → k < 7 →
        (g.getD r []).getD k none = (dayBucket events (ws + (k : Int)))[r]? ∧
        ((dayBucket events (ws + (k : Int))).length ≤ r →
          (g.getD r []).getD k none = none) := by
  unfold printWeekGrids at hg
  rw [List.mem_map] at hg
  obtain ⟨w, _hw, rfl⟩ := hg
  refine ⟨alignWeekStart startDate mondayStart + 7 * (w : Int), rfl, ?_, ?_, ?_⟩
  · unfold weekGrid
    rw [List.length_map, List.length_range]
  · unfold weekGrid
    rw [List.length_map, List.length_range]
    exact Nat.le_max_right _ 1
  · intro r k hr hk
    have hrn : r < max (weekMaxEvents events
        (alignWeekStart startDate mondayStart + 7 * (w : Int))) 1 := by
      rw [show (weekGrid events
            (alignWeekStart startDate mondayStart + 7 * (w : Int))).length =
          max (weekMaxEvents events
            (alignWeekStart startDate mondayStart + 7 * (w : Int))) 1 from by
        unfold weekGrid
        rw [List.length_map, List.length_range]] at hr
      exact hr
    have hcell : (weekGrid events
          (alignWeekStart startDate mondayStart + 7 * (w : Int))).getD r [] =
        (List.range 7).map
          (fun (k : Nat) => (dayBucket events
            (alignWeekStart startDate mondayStart + 7 * (w : Int) +
              (k : Int)))[r]?) := by
      unfold weekGrid
      rw [List.getD_eq_getElem?_getD, List.getElem?_map,
        List.getElem?_range hrn]
      rfl
    have hentry : ((weekGrid events
          (alignWeekStart startDate mondayStart + 7 * (w : Int))).getD r
            []).getD k none =
        (dayBucket events
          (alignWeekStart startDate mondayStart + 7 * (w : Int) +
            (k : Int)))[r]? := by
      rw [hcell, List.getD_eq_getElem?_getD, List.getElem?_map,
        List.getElem?_range hk]
      rfl
    refine ⟨hentry, fun hle => ?_⟩
    rw [hentry]
    exact List.getElem?_eq_none hle

/-- The Monday 2024-03-04 (days since the epoch). -/
def monday0304 : Int := 19786

/-- Three events on Monday 2024-03-04 (and none on any other day). -/
def mondayEvents : List Event :=
  [{ id := "m1", summary := "one", start := PyDateTime.mk (19786 * 86400 + 600) kstOffset,
     end_ := PyDateTime.mk (19786 * 86400 + 1200) kstOffset,
     account_name := "alice", calendar_id := "c" },
   { id := "m2", summary := "two", start := PyDateTime.mk (19786 * 86400 + 1800) kstOffset,
     end_ := PyDateTime.mk (19786 * 86400 + 2400) kstOffset,
     account_name := "alice", calendar_id := "c" },
   { id := "m3", summary := "three", start := PyDateTime.mk (19786 * 86400 + 3000) kstOffset,
     end_ := PyDateTime.mk (19786 * 86400 + 3600) kstOffset,
     account_name := "bob", calendar_id := "c" }]

/-- C8 witness: the row theorem applied to the spec example — three events
on Monday of a one-week window starting Monday — whose grid indeed has
three rows with Tuesday's column blank in all of them. -/
theorem week_grid_rows_witness :
    weekGrid mondayEvents monday0304 ∈
      printWeekGrids mondayEvents 1 monday0304 true ∧
    (∃ ws : Int,
      weekGrid mondayEvents monday0304 = weekGrid mondayEvents ws ∧
      (weekGrid mondayEvents monday0304).length =
        max (weekMaxEvents mondayEvents ws) 1 ∧
      1 ≤ (weekGrid mondayEvents monday0304).length ∧
      ∀ r k : Nat, r < (weekGrid mondayEvents monday0304).length → k < 7 →
        ((weekGrid mondayEvents monday0304).getD r []).getD k none =
          (dayBucket mondayEvents (ws + (k : Int)))[r]? ∧
        ((dayBucket mondayEvents (ws + (k : Int))).length ≤ r →
          ((weekGrid mondayEvents monday0304).getD r []).getD k none =
            none)) ∧
    (weekGrid mondayEvents monday0304).length = 3 ∧
    ((weekGrid mondayEvents monday0304).getD 0 []).getD 1 none = none ∧
    ((weekGrid mondayEvents monday0304).getD 1 []).getD 1 none = none ∧
    ((weekGrid mondayEvents monday0304).getD 2 []).getD 1 none = none :=
  ⟨by decide,
    week_grid_rows mondayEvents 1 monday0304 true
      (weekGrid mondayEvents monday0304) (by decide),
    by decide, by decide, by decide, by decide⟩
